import Mathlib

/-!
Verification of the Notification Dispatch & Scheduling Engine of the
`snds` repository against its natural-language specification.

The definitions below are a shallow embedding of the TypeScript source:

* the enhanced BullMQ worker (`src/worker/notificationWorker.ts`, enhanced
  variant): `processAttempt`, `runRetries`, `runJob`;
* the notification routes (`src/routes/notify.ts`, enhanced variant):
  `postNotify`, `postBulk`;
* the campaign start fan-out (`src/routes/campaigns.ts`): `startFanOut`;
* the scheduler sweeps (`src/scheduler/scheduler.ts`): `promoteOne`,
  `promoteTick`, `completionCheckOne`;
* cancellation of a scheduled notification (`src/routes/notify.ts`,
  DELETE /scheduled/:id): `cancelScheduled`.

External effects that the source code itself treats as fallible (the
channel send, the Prisma campaign-counter updates, the Prisma log insert,
the BullMQ enqueue) are modelled by boolean outcome parameters collected
in `Env`, one per delivery attempt.  Timestamps are natural numbers.
Statuses keep the string values of the source.
-/

namespace Snds

/-- Retry options passed to `notificationQueue.add` by the routes and the
scheduler: `attempts: 3, backoff: type exponential, delay: 10000`. -/
structure JobOpts where
  attempts : Nat
  backoffType : String
  backoffDelay : Nat
deriving Repr, DecidableEq

/-- The retry options used at every enqueue site in the source. -/
def retryOpts : JobOpts :=
  { attempts := 3, backoffType := "exponential", backoffDelay := 10000 }

/-- Payload of a notification job, as destructured by the enhanced
worker processor from `job.data`. -/
structure JobData where
  userId : Option Nat
  recipient : String
  channel : String
  message : String
  subject : Option String
  templateId : Option Nat
  campaignId : Option Nat
deriving Repr, DecidableEq

/-- One row of the `NotificationLog` table, restricted to the fields the
enhanced worker writes (`prisma.notificationLog.create`). -/
structure LogEntry where
  userId : Option Nat
  recipient : String
  channel : String
  message : String
  subject : Option String
  templateId : Option Nat
  campaignId : Option Nat
  status : String
  error : Option String
  attempt : Nat
  deliveredAt : Option Nat
deriving Repr, DecidableEq

/-- Outcomes of the external calls made during one delivery attempt:
`sendOk` is whether the channel sender resolves, `updOk` whether the
success-path `successCount` increment resolves, `catchUpdOk` whether the
catch-path `failureCount` increment resolves, `logOk` whether the
`notificationLog.create` in the finally block resolves, and `now` the
clock value used for `new Date()`. -/
structure Env where
  sendOk : Bool
  updOk : Bool
  catchUpdOk : Bool
  logOk : Bool
  now : Nat
deriving Repr, DecidableEq

/-- Observable effects of one invocation of the worker processor:
the log rows inserted, the counter increments applied to the job's
campaign, and whether the processor returned normally (`completed =
true`) or threw, handing the job back to BullMQ for retry. -/
structure AttemptEffects where
  entries : List LogEntry
  succInc : Nat
  failInc : Nat
  completed : Bool
deriving Repr, DecidableEq

/-- The three channel values the worker dispatches on; anything else
falls through to `throw new Error('Unknown channel: ...')`. -/
def knownChannel (c : String) : Bool :=
  c == "email" || c == "sms" || c == "in-app"

/-- Whether the channel send itself succeeds in this attempt: the
channel must be one of the three known ones and the sender must not
throw. -/
def deliveryOk (env : Env) (job : JobData) : Bool :=
  knownChannel job.channel && env.sendOk

/-- Whether control reaches the catch block of the processor: the send
threw (unknown channel or sender failure), or the send succeeded but the
success-path campaign-counter update threw. -/
def reachedCatch (env : Env) (job : JobData) : Bool :=
  !(deliveryOk env job) || (job.campaignId.isSome && !env.updOk)

/-- Error text recorded in the log row when the attempt failed, `none`
on success (`error` starts as `null` and is set in the catch block). -/
def attemptError (env : Env) (job : JobData) : Option String :=
  if reachedCatch env job then
    (if knownChannel job.channel then some "delivery failed"
     else some "Unknown channel") else none

/-- The log row the finally block inserts for this attempt.  `status`
starts as `'success'` and is set to `'failed'` in the catch block;
`deliveredAt` starts as `null` and is set to `new Date()` right after a
successful send, before the campaign-counter update; `attempt` is
`job.attemptsMade + 1`, where `made` is the number of prior attempts. -/
def attemptLogEntry (env : Env) (job : JobData) (made : Nat) : LogEntry :=
  { userId := job.userId
    recipient := job.recipient
    channel := job.channel
    message := job.message
    subject := job.subject
    templateId := job.templateId
    campaignId := job.campaignId
    status := if reachedCatch env job then "failed" else "success"
    error := attemptError env job
    attempt := made + 1
    deliveredAt := if deliveryOk env job then some env.now else none }

/-- One invocation of the enhanced worker processor on a job whose
`attemptsMade` is `made`.  A counter increment is applied exactly when
the corresponding Prisma update resolves; the log row is inserted
exactly when the `notificationLog.create` resolves (its failure is
swallowed by the inner try/catch of the finally block); the processor
returns normally exactly when no exception escaped the try/catch. -/
def processAttempt (env : Env) (job : JobData) (made : Nat) : AttemptEffects :=
  { entries := if env.logOk then [attemptLogEntry env job made] else []
    succInc :=
      if deliveryOk env job && job.campaignId.isSome && env.updOk then 1 else 0
    failInc :=
      if reachedCatch env job && job.campaignId.isSome && env.catchUpdOk then 1
      else 0
    completed := !(reachedCatch env job) }

/-- BullMQ redelivery: run attempts with the successive per-attempt
environments until the processor returns normally, at most `remaining`
more attempts being allowed; `made` counts the attempts already made. -/
def runRetries (job : JobData) : List Env → Nat → Nat → List AttemptEffects
  | _, 0, _ => []
  | [], _ + 1, _ => []
  | env :: rest, remaining + 1, made =>
    let eff := processAttempt env job made
    if eff.completed then [eff] else eff :: runRetries job rest remaining (made + 1)

/-- A job enqueued with the source's retry options (`attempts: 3`),
processed to its terminal outcome. -/
def runJob (job : JobData) (envs : List Env) : List AttemptEffects :=
  runRetries job envs retryOpts.attempts 0

/-- One row of the `ScheduledNotification` table, restricted to the
fields the routes and the scheduler touch.  `status` defaults to
`'pending'` in the schema. -/
structure Sched where
  id : Nat
  userId : Option Nat
  recipient : String
  channel : String
  message : String
  subject : Option String
  templateId : Option Nat
  campaignId : Option Nat
  sendAt : Nat
  status : String
deriving Repr, DecidableEq

/-- Response of the single-notification submission route. -/
inductive SubmitResp where
  | validationError
  | templateError
  | queued
  | scheduled (id : Nat)
deriving Repr, DecidableEq

/-- Request body of POST / on the notify router, after express-validator
parsing: `sendAt` is `none` when the field is absent. -/
structure NotifyReq where
  recipient : String
  channel : String
  message : String
  subject : Option String
  sendAt : Option Nat
  templateId : Option Nat
deriving Repr, DecidableEq

/-- The express-validator chain of POST /: `to` a non-empty string,
`channel` in the three known values, `message` a non-empty string
(presence and format of the optional fields is carried by their
types). -/
def validNotifyReq (req : NotifyReq) : Bool :=
  !(req.recipient == "") && knownChannel req.channel && !(req.message == "")

/-- For email the submitted subject is kept, for other channels the
route stores `null` (`channel === 'email' ? subject : null`). -/
def subjectFor (channel : String) (subject : Option String) : Option String :=
  if channel == "email" then subject else none

/-- The job payload POST / passes to `notificationQueue.add` for an
immediate submission. -/
def jobOfReq (userId : Nat) (req : NotifyReq) : JobData :=
  { userId := some userId, recipient := req.recipient,
    channel := req.channel, message := req.message,
    subject := subjectFor req.channel req.subject,
    templateId := req.templateId, campaignId := none }

/-- The `ScheduledNotification` row POST / creates for a submission
carrying `sendAt = t`; the schema defaults its status to `'pending'`. -/
def schedOfReq (userId : Nat) (newId : Nat) (t : Nat) (req : NotifyReq) :
    Sched :=
  { id := newId, userId := some userId, recipient := req.recipient,
    channel := req.channel, message := req.message,
    subject := subjectFor req.channel req.subject,
    templateId := req.templateId, campaignId := none,
    sendAt := t, status := "pending" }

/-- POST / of the enhanced notify router.  After validation and the
template check, the route branches only on the presence of `sendAt`
(`if (sendAt)`): when present it creates a `ScheduledNotification` and
answers `status: 'scheduled'` with its id; when absent it enqueues the
job with the retry options and answers `status: 'queued'`.  `newId` is
the id the store assigns to a created row; `templateOk` is whether the
optional template lookup succeeds and matches the channel.  The result
is the response, the jobs enqueued and the scheduled rows created. -/
def postNotify (userId : Nat) (newId : Nat) (templateOk : Bool)
    (req : NotifyReq) : SubmitResp × List (JobData × JobOpts) × List Sched :=
  if !(validNotifyReq req) then (.validationError, [], [])
  else if req.templateId.isSome && !templateOk then (.templateError, [], [])
  else
    match req.sendAt with
    | some t => (.scheduled newId, [], [schedOfReq userId newId t req])
    | none => (.queued, [(jobOfReq userId req, retryOpts)], [])

/-- Request body of POST /bulk on the notify router. -/
structure BulkReq where
  recipients : List String
  channel : String
  message : String
  subject : Option String
  sendAt : Option Nat
  templateId : Option Nat
deriving Repr, DecidableEq

/-- The express-validator chain of POST /bulk: `recipients` an array of
length between 1 and 100 (`isArray(min 1, max 100)`), `channel` in the
three known values, `message` a non-empty string. -/
def validBulkReq (req : BulkReq) : Bool :=
  1 ≤ req.recipients.length && req.recipients.length ≤ 100 &&
    knownChannel req.channel && !(req.message == "")

/-- POST /bulk of the enhanced notify router: after validation and the
template check, with `sendAt` present one `ScheduledNotification` per
recipient is created (ids `baseId`, `baseId + 1`, ...), otherwise one
job per recipient is enqueued with the retry options. -/
def postBulk (userId : Nat) (baseId : Nat) (templateOk : Bool)
    (req : BulkReq) : SubmitResp × List (JobData × JobOpts) × List Sched :=
  if !(validBulkReq req) then (.validationError, [], [])
  else if req.templateId.isSome && !templateOk then (.templateError, [], [])
  else
    match req.sendAt with
    | some t =>
      (.scheduled baseId, [],
        req.recipients.enum.map fun p =>
          { id := baseId + p.1, userId := some userId, recipient := p.2,
            channel := req.channel, message := req.message,
            subject := subjectFor req.channel req.subject,
            templateId := req.templateId, campaignId := none,
            sendAt := t, status := "pending" })
    | none =>
      (.queued,
        req.recipients.map (fun r =>
          ({ userId := some userId, recipient := r, channel := req.channel,
             message := req.message,
             subject := subjectFor req.channel req.subject,
             templateId := req.templateId, campaignId := none }, retryOpts)),
        [])

/-- DELETE /scheduled/:id on the notify router, seen from the record it
addresses: `findFirst` filters on `status: 'pending'`, so the update to
`'cancelled'` runs exactly when the record is still pending; otherwise
the route answers 404 and the record is untouched.  The boolean is
whether the cancellation succeeded. -/
def cancelScheduled (r : Sched) : Bool × Sched :=
  if r.status = "pending" then (true, { r with status := "cancelled" })
  else (false, r)

/-- The job the promotion sweep builds from a due scheduled record
(field-for-field copy, `notificationQueue.add('send', ...)`). -/
def jobOfSched (r : Sched) : JobData :=
  { userId := r.userId, recipient := r.recipient, channel := r.channel,
    message := r.message, subject := r.subject,
    templateId := r.templateId, campaignId := r.campaignId }

/-- Outcomes of the queue and store calls the promotion sweep makes
for one record, each fallible as in the source: `enqOk` is whether
`notificationQueue.add` resolves, `markQueuedOk` whether the update to
status `'queued'` resolves, and `markFailedOk` whether the catch
block's update to status `'failed'` resolves. -/
structure SweepEnv where
  enqOk : Bool
  markQueuedOk : Bool
  markFailedOk : Bool
deriving Repr, DecidableEq

/-- Effect of the promotion sweep on one record: its stored status
afterwards, the jobs enqueued for it, and whether the per-record catch
itself threw — that exception escapes to the sweep's outer catch,
ending this tick's loop, with the record keeping its prior status. -/
structure PromoteResult where
  record : Sched
  jobs : List (JobData × JobOpts)
  aborted : Bool
deriving Repr, DecidableEq

/-- The promotion sweep seen from one record: a record with status
`'pending'` and `sendAt ≤ now` is selected; the sweep enqueues the
equivalent job with the retry options and then marks the record
`'queued'`.  The per-record try covers both calls and its catch marks
the record `'failed'` whichever of the two threw — so when the enqueue
succeeded and only the mark-queued update threw, the record ends
`'failed'` although its job was enqueued.  When the catch's own update
throws, the record keeps status `'pending'` (a later sweep will select
it again) and the exception aborts this tick's loop.  Unselected
records are untouched. -/
def promoteOne (now : Nat) (env : SweepEnv) (r : Sched) : PromoteResult :=
  if r.status = "pending" ∧ r.sendAt ≤ now then
    if env.enqOk then
      if env.markQueuedOk then
        ⟨{ r with status := "queued" }, [(jobOfSched r, retryOpts)], false⟩
      else if env.markFailedOk then
        ⟨{ r with status := "failed" }, [(jobOfSched r, retryOpts)], false⟩
      else ⟨r, [(jobOfSched r, retryOpts)], true⟩
    else
      if env.markFailedOk then ⟨{ r with status := "failed" }, [], false⟩
      else ⟨r, [], true⟩
  else ⟨r, [], false⟩

/-- One promotion tick over the store's due selection, processing the
records in order; a record whose catch-side update throws ends the
loop, leaving the remaining records untouched for this tick.  `envOf`
gives each record's call outcomes by id. -/
def promoteTick (now : Nat) (envOf : Nat → SweepEnv) :
    List Sched → List Sched × List (JobData × JobOpts)
  | [] => ([], [])
  | r :: rs =>
    let p := promoteOne now (envOf r.id) r
    if p.aborted then (p.record :: rs, p.jobs)
    else
      let q := promoteTick now envOf rs
      (p.record :: q.1, p.jobs ++ q.2)

/-- The operations of the system that touch the status of one scheduled
record: a promotion sweep tick (with its clock and this record's call
outcomes) and a cancellation request. -/
inductive SchedOp where
  | sweep (now : Nat) (env : SweepEnv)
  | cancel
deriving Repr, DecidableEq

/-- A sweep operation whose two status updates both resolve; a
cancellation is always reliable in this sense. -/
def reliableOp : SchedOp → Prop
  | .sweep _ env => env.markQueuedOk = true ∧ env.markFailedOk = true
  | .cancel => True

/-- Effect of one operation on one scheduled record, together with the
number of jobs it enqueues for that record. -/
def applySchedOp : SchedOp → Sched → Sched × Nat
  | .sweep now env, r =>
    let p := promoteOne now env r
    (p.record, p.jobs.length)
  | .cancel, r => ((cancelScheduled r).2, 0)

/-- A sequence of sweeps and cancellations applied to one scheduled
record, counting the promotions (jobs enqueued) for it. -/
def runSchedOps : List SchedOp → Sched → Sched × Nat
  | [], r => (r, 0)
  | op :: ops, r =>
    let p := applySchedOp op r
    let q := runSchedOps ops p.1
    (q.1, p.2 + q.2)

/-- One row of the `NotificationCampaign` table, restricted to the
fields the completion sweep reads and writes; `schedStatuses` carries
the statuses of the campaign's scheduled notifications, from which the
sweep's relation count over status in (pending, queued) is computed. -/
structure CampaignRec where
  status : String
  successCount : Nat
  failureCount : Nat
  totalRecipients : Nat
  completedAt : Option Nat
  schedStatuses : List String
deriving Repr, DecidableEq

/-- The `_count.scheduledNotifications` the completion sweep requests:
the campaign's scheduled notifications with status in
(`'pending'`, `'queued'`). -/
def outstanding (c : CampaignRec) : Nat :=
  (c.schedStatuses.filter fun s => s == "pending" || s == "queued").length

/-- The campaign completion sweep seen from one campaign: only
campaigns with status `'running'` are fetched; such a campaign is
updated to `'completed'` with `completedAt` stamped exactly when its
pending count is zero and `successCount + failureCount >=
totalRecipients`. -/
def completionCheckOne (now : Nat) (c : CampaignRec) : CampaignRec :=
  if c.status = "running" ∧ outstanding c = 0 ∧
      c.totalRecipients ≤ c.successCount + c.failureCount then
    { c with status := "completed", completedAt := some now }
  else c

/-- The fan-out performed by POST /:id/start on the campaigns router:
one job per recipient, carrying the template content and subject, the
template id and the campaign id, each enqueued with the retry
options. -/
def startFanOut (userId : Nat) (campaignId : Nat) (channel : String)
    (templateContent : String) (templateSubject : Option String)
    (templateId : Nat) (recipients : List String) :
    List (JobData × JobOpts) :=
  recipients.map fun r =>
    ({ userId := some userId, recipient := r, channel := channel,
       message := templateContent, subject := templateSubject,
       templateId := some templateId, campaignId := some campaignId },
     retryOpts)

/-- The per-attempt campaign-counter increment events produced by a set
of campaign jobs, each job run to its terminal outcome with its own
list of per-attempt environments: one event per delivery attempt, the
event being the number of counter updates that attempt applied.  The
campaign's `successCount + failureCount` after `k` of these atomic
increments have been applied is the sum of the first `k` events (in
whatever order concurrent workers commit them). -/
def incEvents (jobs : List (JobData × List Env)) : List Nat :=
  (jobs.map fun p => (runJob p.1 p.2).map fun e => e.succInc + e.failInc).flatten

/-- The campaign's `successCount + failureCount` once `k` of the
increment events have been committed. -/
def countersAt (jobs : List (JobData × List Env)) (k : Nat) : Nat :=
  ((incEvents jobs).take k).sum

/-- Concrete per-attempt environment in which every external call
succeeds. -/
def okEnv : Env :=
  { sendOk := true, updOk := true, catchUpdOk := true, logOk := true, now := 3 }

/-- Concrete per-attempt environment in which the channel send fails
and every store call succeeds. -/
def sendFailEnv : Env :=
  { sendOk := false, updOk := true, catchUpdOk := true, logOk := true,
    now := 0 }

/-- Concrete per-attempt environment in which the send succeeds but the
success-path campaign-counter update throws. -/
def updFailEnv : Env :=
  { sendOk := true, updOk := false, catchUpdOk := true, logOk := true,
    now := 42 }

/-- Concrete email job belonging to campaign 1. -/
def emailCampaignJob : JobData :=
  { userId := some 1, recipient := "a@x.com", channel := "email",
    message := "hi", subject := none, templateId := none,
    campaignId := some 1 }

/-- Concrete email job belonging to no campaign. -/
def emailPlainJob : JobData :=
  { userId := some 1, recipient := "a@x.com", channel := "email",
    message := "hi", subject := none, templateId := none,
    campaignId := none }

/-- Concrete job with the unsupported channel 'fax'. -/
def faxJob : JobData :=
  { userId := some 1, recipient := "a@x.com", channel := "fax",
    message := "hi", subject := none, templateId := none,
    campaignId := none }

/-- Concrete submission with the unsupported channel 'fax'. -/
def faxReq : NotifyReq :=
  { recipient := "a@x.com", channel := "fax", message := "hi",
    subject := none, sendAt := none, templateId := none }

/-- Concrete submission carrying a `sendAt` timestamp. -/
def pastReq : NotifyReq :=
  { recipient := "a@x.com", channel := "email", message := "hi",
    subject := none, sendAt := some 5, templateId := none }

/-- Concrete submission with no `sendAt`. -/
def immediateReq : NotifyReq :=
  { recipient := "a@x.com", channel := "email", message := "hi",
    subject := none, sendAt := none, templateId := none }

/-- Concrete bulk submission with two recipients. -/
def bulkReqSmall : BulkReq :=
  { recipients := ["a@x.com", "b@x.com"], channel := "email",
    message := "hi", subject := none, sendAt := none, templateId := none }

/-- Concrete bulk submission with an empty recipients array. -/
def bulkReqEmpty : BulkReq :=
  { recipients := [], channel := "email", message := "hi", subject := none,
    sendAt := none, templateId := none }

/-- Concrete pending scheduled notification due at time 5. -/
def pendingSched : Sched :=
  { id := 11, userId := some 1, recipient := "a@x.com", channel := "email",
    message := "hi", subject := none, templateId := none,
    campaignId := none, sendAt := 5, status := "pending" }

/-- The same record after promotion. -/
def queuedSched : Sched := { pendingSched with status := "queued" }

/-- Call outcomes of a sweep in which every queue and store call
resolves. -/
def okSweepEnv : SweepEnv :=
  { enqOk := true, markQueuedOk := true, markFailedOk := true }

/-- Two consecutive sweep ticks over a due pending record: in the
first, the enqueue succeeds but both status updates throw, so the
record keeps status pending though its job was enqueued; in the
second, every call succeeds. -/
def doublePromoteOps : List SchedOp :=
  [SchedOp.sweep 10
    { enqOk := true, markQueuedOk := false, markFailedOk := false },
   SchedOp.sweep 11 okSweepEnv]

/-- Concrete running campaign whose work is drained: no outstanding
scheduled notifications, counters at the recipient total. -/
def drainedCampaign : CampaignRec :=
  { status := "running", successCount := 2, failureCount := 1,
    totalRecipients := 3, completedAt := none,
    schedStatuses := ["sent", "sent", "failed"] }

/-- A one-recipient campaign whose single job fails twice: the
environments of the two delivery attempts the retry policy grants
before the example stops. -/
def oneRecipientRun : List (JobData × List Env) :=
  ((startFanOut 1 5 "email" "hi" none 9 ["a@x.com"]).map Prod.fst).map
    fun j => (j, [sendFailEnv, sendFailEnv])

/-- A two-recipient campaign in which each job succeeds on its first
attempt. -/
def twoRecipientRun : List (JobData × List Env) :=
  ((startFanOut 1 5 "email" "hi" none 9 ["a@x.com", "b@x.com"]).map
    Prod.fst).zip [[okEnv], [okEnv]]

/-- A list of naturals each at most 1 sums to at most its length. -/
theorem sum_le_length_of_le_one :
    ∀ l : List Nat, (∀ x ∈ l, x ≤ 1) → l.sum ≤ l.length
  | [], _ => by simp
  | x :: xs, h => by
    have hx := h x (List.mem_cons_self x xs)
    have hxs :=
      sum_le_length_of_le_one xs fun y hy => h y (List.mem_cons_of_mem x hy)
    simp only [List.sum_cons, List.length_cons]
    omega

/-- A partial sum of a list of naturals is at most the full sum. -/
theorem take_sum_le_sum (l : List Nat) (k : Nat) : (l.take k).sum ≤ l.sum := by
  conv_rhs => rw [← List.take_append_drop k l]
  rw [List.sum_append]
  exact Nat.le_add_right _ _

/-- Unfolding equation of `runRetries` on a cons cell. -/
theorem runRetries_cons (job : JobData) (env : Env) (rest : List Env)
    (r m : Nat) :
    runRetries job (env :: rest) (r + 1) m =
      if (processAttempt env job m).completed then [processAttempt env job m]
      else processAttempt env job m :: runRetries job rest r (m + 1) := rfl

/-- Every element of a retry trace is the effect of one processor
invocation on some of the supplied environments. -/
theorem mem_runRetries (job : JobData) :
    ∀ (envs : List Env) (r m : Nat) (eff : AttemptEffects),
      eff ∈ runRetries job envs r m →
      ∃ env made, env ∈ envs ∧ eff = processAttempt env job made
  | [], r, _, _, h => by cases r <;> simp [runRetries] at h
  | _ :: _, 0, _, _, h => by simp [runRetries] at h
  | env :: rest, r + 1, m, eff, h => by
    rw [runRetries_cons] at h
    by_cases hc : (processAttempt env job m).completed = true
    · rw [if_pos hc] at h
      simp only [List.mem_singleton] at h
      exact ⟨env, m, List.mem_cons_self env rest, h⟩
    · rw [if_neg hc] at h
      rcases List.mem_cons.mp h with h | h
      · exact ⟨env, m, List.mem_cons_self env rest, h⟩
      · obtain ⟨env2, made2, hmem, heq⟩ := mem_runRetries job rest r (m + 1) eff h
        exact ⟨env2, made2, List.mem_cons_of_mem env hmem, heq⟩

/-- The element at position `i` of a retry trace started after `m`
attempts is a processor invocation with `attemptsMade = m + i`, on one
of the supplied environments. -/
theorem runRetries_elem (job : JobData) :
    ∀ (envs : List Env) (r m i : Nat) (eff : AttemptEffects),
      (runRetries job envs r m)[i]? = some eff →
      ∃ env, env ∈ envs ∧ eff = processAttempt env job (m + i)
  | [], r, _, _, _, h => by cases r <;> simp [runRetries] at h
  | _ :: _, 0, _, _, _, h => by simp [runRetries] at h
  | env :: rest, r + 1, m, i, eff, h => by
    rw [runRetries_cons] at h
    by_cases hc : (processAttempt env job m).completed = true
    · rw [if_pos hc] at h
      cases i with
      | zero =>
        simp only [List.getElem?_cons_zero, Option.some_inj] at h
        exact ⟨env, List.mem_cons_self env rest, by simpa using h.symm⟩
      | succ j => simp at h
    · rw [if_neg hc] at h
      cases i with
      | zero =>
        simp only [List.getElem?_cons_zero, Option.some_inj] at h
        exact ⟨env, List.mem_cons_self env rest, by simpa using h.symm⟩
      | succ j =>
        simp only [List.getElem?_cons_succ] at h
        obtain ⟨env2, hmem, heq⟩ := runRetries_elem job rest r (m + 1) j eff h
        refine ⟨env2, List.mem_cons_of_mem env hmem, ?_⟩
        have harith : m + 1 + j = m + (j + 1) := by omega
        rw [heq, harith]

/-- Each processor invocation applies at most one campaign-counter
increment: a success increment precludes reaching the catch block, and
the failure increment lives in the catch block. -/
theorem incs_le_one (env : Env) (job : JobData) (made : Nat) :
    (processAttempt env job made).succInc +
      (processAttempt env job made).failInc ≤ 1 := by
  simp only [processAttempt]
  cases hd : deliveryOk env job <;> cases hc : job.campaignId.isSome <;>
    cases hu : env.updOk <;> cases hcu : env.catchUpdOk <;>
      simp [reachedCatch, hd, hc, hu, hcu]

/-- A job whose channel is outside the three known values reaches the
catch block on every attempt: the processor throws and never returns
normally. -/
theorem unknown_not_completed (env : Env) (job : JobData) (made : Nat)
    (h : knownChannel job.channel = false) :
    (processAttempt env job made).completed = false := by
  simp [processAttempt, reachedCatch, deliveryOk, h]

/-- For an unknown-channel job every attempt fails, so the retry loop
runs for as many attempts as the policy and the environment list
allow. -/
theorem runRetries_length_unknown (job : JobData)
    (h : knownChannel job.channel = false) :
    ∀ (envs : List Env) (r m : Nat),
      (runRetries job envs r m).length = min envs.length r
  | [], r, _ => by cases r <;> simp [runRetries]
  | _ :: _, 0, _ => by simp [runRetries]
  | env :: rest, r + 1, m => by
    rw [runRetries_cons, if_neg]
    · simp only [List.length_cons,
        runRetries_length_unknown job h rest r (m + 1)]
      omega
    · simp [unknown_not_completed env job m h]

/-- Claim C3: for every delivery attempt of every job, regardless of
success or failure, the worker writes exactly one Delivery Log Entry
for that attempt (the log store accepting the write), and the entry's
attempt number equals the number of prior attempts on that job plus
one. -/
theorem c3_one_log_per_attempt (job : JobData) (envs : List Env)
    (hlog : ∀ e ∈ envs, e.logOk = true) (i : Nat)
    (hi : i < (runJob job envs).length) :
    ((runJob job envs).get ⟨i, hi⟩).entries.length = 1 ∧
    ∀ entry ∈ ((runJob job envs).get ⟨i, hi⟩).entries,
      entry.attempt = i + 1 := by
  have hget : (runJob job envs)[i]? = some ((runJob job envs).get ⟨i, hi⟩) := by
    rw [List.getElem?_eq_getElem hi]
    simp [List.get_eq_getElem]
  obtain ⟨env, hmem, heq⟩ :=
    runRetries_elem job envs retryOpts.attempts 0 i
      ((runJob job envs).get ⟨i, hi⟩) hget
  have hl : env.logOk = true := hlog env hmem
  rw [heq]
  constructor
  · simp [processAttempt, hl]
  · intro entry hentry
    simp only [processAttempt, hl, if_true, List.mem_singleton] at hentry
    rw [hentry]
    simp [attemptLogEntry]

/-- Witness for C3: an email job whose first attempt fails and whose
second succeeds produces, in its second trace element, exactly one log
entry with attempt number 2. -/
theorem c3_witness :
    ((runJob emailPlainJob [sendFailEnv, okEnv]).get ⟨1, by decide⟩).entries.length = 1 ∧
    ∀ entry ∈ ((runJob emailPlainJob [sendFailEnv, okEnv]).get ⟨1, by decide⟩).entries,
      entry.attempt = 1 + 1 :=
  c3_one_log_per_attempt emailPlainJob [sendFailEnv, okEnv] (by decide) 1
    (by decide)

/-- Claim C2, counterexample: a job with channel 'fax' enqueued with the
default retry options is processed three times, producing three failed
log entries with attempt numbers 1, 2 and 3 — not a single terminal
entry with attempt 1 and no further attempts.  The worker rethrows the
unknown-channel error exactly like a delivery failure, so BullMQ
retries it. -/
theorem c2_counterexample :
    (runJob faxJob [okEnv, okEnv, okEnv]).length = 3 ∧
    ((runJob faxJob [okEnv, okEnv, okEnv]).map
      (fun e => e.entries.map LogEntry.attempt)).flatten = [1, 2, 3] ∧
    ∀ eff ∈ runJob faxJob [okEnv, okEnv, okEnv],
      ∀ entry ∈ eff.entries, entry.status = "failed" := by decide

/-- Claim C2 (amended): a submission whose channel is outside the three
known values is rejected by the route's validation, so no such job is
enqueued through the API; a job carrying an unknown channel that does
reach the worker fails on every attempt and is retried by the queue
like any delivery error, producing one failed log entry per attempt
with attempt numbers 1, 2, ... up to the retry ceiling of 3. -/
theorem c2_amended_unknown_channel (userId newId : Nat) (tok : Bool)
    (req : NotifyReq) (hreq : knownChannel req.channel = false)
    (job : JobData) (hjob : knownChannel job.channel = false)
    (envs : List Env) (hlog : ∀ e ∈ envs, e.logOk = true) :
    postNotify userId newId tok req = (.validationError, [], []) ∧
    (runJob job envs).length = min envs.length 3 ∧
    ∀ (i : Nat) (hi : i < (runJob job envs).length),
      ((runJob job envs).get ⟨i, hi⟩).entries.length = 1 ∧
      ∀ entry ∈ ((runJob job envs).get ⟨i, hi⟩).entries,
        entry.status = "failed" ∧ entry.attempt = i + 1 := by
  refine ⟨?_, ?_, ?_⟩
  · simp [postNotify, validNotifyReq, hreq]
  · simpa [runJob, retryOpts] using
      runRetries_length_unknown job hjob envs 3 0
  · intro i hi
    have hget : (runJob job envs)[i]? =
        some ((runJob job envs).get ⟨i, hi⟩) := by
      rw [List.getElem?_eq_getElem hi]
      simp [List.get_eq_getElem]
    obtain ⟨env, hmem, heq⟩ :=
      runRetries_elem job envs retryOpts.attempts 0 i
        ((runJob job envs).get ⟨i, hi⟩) hget
    have hl : env.logOk = true := hlog env hmem
    rw [heq]
    constructor
    · simp [processAttempt, hl]
    · intro entry hentry
      simp only [processAttempt, hl, if_true, List.mem_singleton] at hentry
      rw [hentry]
      simp [attemptLogEntry, reachedCatch, deliveryOk, hjob]

/-- Witness for the amended C2 at a 'fax' submission and a 'fax' job
with three all-successful store environments. -/
theorem c2_amended_witness :
    postNotify 1 7 true faxReq = (.validationError, [], []) ∧
    (runJob faxJob [okEnv, okEnv, okEnv]).length = 3 ∧
    ∀ (i : Nat) (hi : i < (runJob faxJob [okEnv, okEnv, okEnv]).length),
      ((runJob faxJob [okEnv, okEnv, okEnv]).get ⟨i, hi⟩).entries.length = 1 ∧
      ∀ entry ∈ ((runJob faxJob [okEnv, okEnv, okEnv]).get ⟨i, hi⟩).entries,
        entry.status = "failed" ∧ entry.attempt = i + 1 :=
  c2_amended_unknown_channel 1 7 true faxReq (by decide) faxJob (by decide)
    [okEnv, okEnv, okEnv] (by decide)

/-- Claim C4: a failure of the Delivery Log write does not change the
outcome of the attempt — the processor's completion status ignores the
log outcome — and an attempt whose delivery succeeded (and whose
campaign-counter update, when applicable, succeeded) completes the job,
so it is never redelivered, whatever the log write did. -/
theorem c4_logging_nonfatal (job : JobData) (env : Env) (made : Nat) :
    (∀ b : Bool,
      (processAttempt { env with logOk := b } job made).completed =
        (processAttempt env job made).completed) ∧
    (deliveryOk env job = true →
      (job.campaignId.isSome = true → env.updOk = true) →
      (processAttempt env job made).completed = true ∧
      ∀ (rest : List Env) (r : Nat),
        runRetries job (env :: rest) (r + 1) made =
          [processAttempt env job made]) := by
  obtain ⟨s, u, cu, lo, n⟩ := env
  refine ⟨fun b => rfl, fun hdel hupd => ?_⟩
  have hrc : reachedCatch ⟨s, u, cu, lo, n⟩ job = false := by
    cases hcamp : job.campaignId.isSome with
    | true =>
      have hu : u = true := hupd hcamp
      subst hu
      simp [reachedCatch, hdel, hcamp]
    | false => simp [reachedCatch, hdel, hcamp]
  have hcompleted : (processAttempt ⟨s, u, cu, lo, n⟩ job made).completed = true := by
    simp [processAttempt, hrc]
  exact ⟨hcompleted, fun rest r => by rw [runRetries_cons, if_pos hcompleted]⟩

/-- Witness for C4: a successful email delivery whose log write fails
still completes on the first attempt and is not redelivered. -/
theorem c4_witness :
    (∀ b : Bool,
      (processAttempt { { okEnv with logOk := false } with logOk := b }
          emailPlainJob 0).completed =
        (processAttempt { okEnv with logOk := false } emailPlainJob 0).completed) ∧
    (deliveryOk { okEnv with logOk := false } emailPlainJob = true →
      (emailPlainJob.campaignId.isSome = true →
        ({ okEnv with logOk := false } : Env).updOk = true) →
      (processAttempt { okEnv with logOk := false } emailPlainJob 0).completed = true ∧
      ∀ (rest : List Env) (r : Nat),
        runRetries emailPlainJob ({ okEnv with logOk := false } :: rest) (r + 1) 0 =
          [processAttempt { okEnv with logOk := false } emailPlainJob 0]) :=
  c4_logging_nonfatal emailPlainJob { okEnv with logOk := false } 0

/-- Claim C9, counterexample: when the send succeeds but the
success-path campaign-counter update throws, the catch block flips the
status to 'failed' although deliveredAt was already stamped, so the
worker logs an entry with status 'failed' and a non-null
deliveredAt. -/
theorem c9_counterexample :
    (processAttempt updFailEnv emailCampaignJob 0).entries.map
        LogEntry.status = ["failed"] ∧
    (processAttempt updFailEnv emailCampaignJob 0).entries.map
        LogEntry.deliveredAt = [some 42] := by decide

/-- Claim C9 (amended): in every entry the enhanced worker logs,
deliveredAt is non-null exactly when the channel send of that attempt
succeeded; provided the success-path campaign-counter update does not
throw, this coincides with the entry's status being 'success' — the
claimed equivalence; it breaks only when that update throws after a
successful send. -/
theorem c9_amended_deliveredAt (env : Env) (job : JobData) (made : Nat) :
    (∀ entry ∈ (processAttempt env job made).entries,
      (entry.deliveredAt ≠ none ↔ deliveryOk env job = true)) ∧
    ((job.campaignId.isSome = true → env.updOk = true) →
      ∀ entry ∈ (processAttempt env job made).entries,
        (entry.deliveredAt ≠ none ↔ entry.status = "success")) := by
  have hrc : (job.campaignId.isSome = true → env.updOk = true) →
      reachedCatch env job = !(deliveryOk env job) := by
    intro hupd
    cases hcamp : job.campaignId.isSome with
    | true => simp [reachedCatch, hupd hcamp]
    | false => simp [reachedCatch, hcamp]
  cases hl : env.logOk with
  | false => simp [processAttempt, hl]
  | true =>
    constructor
    · intro entry hentry
      simp only [processAttempt, hl, if_true, List.mem_singleton] at hentry
      rw [hentry]
      cases hd : deliveryOk env job <;> simp [attemptLogEntry, hd]
    · intro hupd entry hentry
      simp only [processAttempt, hl, if_true, List.mem_singleton] at hentry
      rw [hentry]
      cases hd : deliveryOk env job <;>
        simp [attemptLogEntry, hrc hupd, hd]

/-- Claim C1, counterexample: a campaign started over a single
recipient (totalRecipients = 1) whose one job fails on its first two
delivery attempts has failureCount incremented once per failed attempt
by the worker's catch block, so after both increments commit,
successCount + failureCount = 2 exceeds totalRecipients = 1. -/
theorem c1_counterexample :
    (["a@x.com"] : List String).length = 1 ∧
    countersAt oneRecipientRun 2 = 2 ∧
    ¬ countersAt oneRecipientRun 2 ≤ (["a@x.com"] : List String).length := by
  decide

/-- Claim C1 (amended): the campaign counters receive at most one
atomic increment per delivery attempt, so at every observation point
(after any number `k` of the increment events have committed, in any
order) successCount + failureCount is bounded by the number of
delivery attempts made; in particular it never exceeds totalRecipients
(= the number of recipients fanned out) as long as no job is retried,
i.e. every job reaches a terminal outcome on its first attempt.  A
retried job breaks the original bound because failureCount counts
failed attempts, not failed recipients. -/
theorem c1_amended_counters_bound (userId campaignId templateId : Nat)
    (channel content : String) (subject : Option String)
    (recipients : List String) (envss : List (List Env))
    (jobs : List (JobData × List Env))
    (hjobs : jobs =
      ((startFanOut userId campaignId channel content subject templateId
        recipients).map Prod.fst).zip envss)
    (hnoretry : ∀ p ∈ jobs, (runJob p.1 p.2).length ≤ 1)
    (k : Nat) :
    countersAt jobs k ≤ recipients.length := by
  have h1 : countersAt jobs k ≤ (incEvents jobs).sum := take_sum_le_sum _ _
  have h2 : (incEvents jobs).sum ≤ (incEvents jobs).length := by
    apply sum_le_length_of_le_one
    intro x hx
    simp only [incEvents, List.mem_flatten, List.mem_map] at hx
    obtain ⟨l, ⟨p, hp, hl⟩, hxl⟩ := hx
    rw [← hl] at hxl
    obtain ⟨e, he, hxe⟩ := List.mem_map.mp hxl
    obtain ⟨env, made, hmem, heq⟩ :=
      mem_runRetries p.1 p.2 retryOpts.attempts 0 e he
    rw [← hxe, heq]
    exact incs_le_one env p.1 made
  have h3 : (incEvents jobs).length ≤ jobs.length := by
    simp only [incEvents, List.length_flatten, List.map_map,
      Function.comp_def, List.length_map]
    have hle : ∀ x ∈ jobs.map (fun p => (runJob p.1 p.2).length), x ≤ 1 := by
      intro x hx
      obtain ⟨p, hp, hxe⟩ := List.mem_map.mp hx
      rw [← hxe]
      exact hnoretry p hp
    have := sum_le_length_of_le_one _ hle
    simpa using this
  have h4 : jobs.length ≤ recipients.length := by
    rw [hjobs, List.length_zip, List.length_map]
    simp [startFanOut]
  omega

/-- Witness for the amended C1: a two-recipient campaign whose jobs
each succeed first try keeps the counters within totalRecipients = 2 at
every observation point. -/
theorem c1_amended_witness :
    countersAt twoRecipientRun 5 ≤
      (["a@x.com", "b@x.com"] : List String).length :=
  c1_amended_counters_bound 1 5 9 "email" "hi" none
    ["a@x.com", "b@x.com"] [[okEnv], [okEnv]] twoRecipientRun rfl
    (by decide) 5

/-- Witness for the amended C9: with every store call succeeding, a
successful campaign delivery logs status 'success' with deliveredAt
stamped. -/
theorem c9_amended_witness :
    (∀ entry ∈ (processAttempt okEnv emailCampaignJob 0).entries,
      (entry.deliveredAt ≠ none ↔ deliveryOk okEnv emailCampaignJob = true)) ∧
    ((emailCampaignJob.campaignId.isSome = true → okEnv.updOk = true) →
      ∀ entry ∈ (processAttempt okEnv emailCampaignJob 0).entries,
        (entry.deliveredAt ≠ none ↔ entry.status = "success")) :=
  c9_amended_deliveredAt okEnv emailCampaignJob 0

/-- Claim C5, counterexample: at a server time of 100, a submission
carrying sendAt = 5 — a timestamp in the past — is not enqueued
immediately: the route tests only the presence of sendAt, creates a
Scheduled Notification and answers 'scheduled', enqueueing no job. -/
theorem c5_counterexample :
    pastReq.sendAt = some 5 ∧ 5 ≤ 100 ∧
    (postNotify 1 7 true pastReq).1 = SubmitResp.scheduled 7 ∧
    (postNotify 1 7 true pastReq).1 ≠ SubmitResp.queued ∧
    (postNotify 1 7 true pastReq).2.1 = [] := by decide

/-- Claim C5 (amended): for every valid submission, if sendAt is absent
the job is enqueued immediately with the retry options and the response
reports 'queued'; if sendAt is present — whether in the past or in the
future — a Scheduled Notification (status 'pending') is created and
the response reports 'scheduled' with its id. -/
theorem c5_amended_sendat_presence (userId newId : Nat) (tok : Bool)
    (req : NotifyReq) (hvalid : validNotifyReq req = true)
    (htemp : req.templateId.isSome = true → tok = true) :
    (req.sendAt = none →
      postNotify userId newId tok req =
        (.queued, [(jobOfReq userId req, retryOpts)], [])) ∧
    (∀ t, req.sendAt = some t →
      postNotify userId newId tok req =
        (.scheduled newId, [], [schedOfReq userId newId t req])) := by
  have hv : (!validNotifyReq req) = false := by simp [hvalid]
  have ht : (req.templateId.isSome && !tok) = false := by
    cases hti : req.templateId.isSome with
    | false => simp
    | true => simp [htemp hti]
  constructor
  · intro hnone
    simp [postNotify, hv, ht, hnone]
  · intro t hsome
    simp [postNotify, hv, ht, hsome]

/-- Witness for the amended C5: a valid email submission with
sendAt = 5 creates the pending scheduled row with id 7 and answers
'scheduled'. -/
theorem c5_amended_witness :
    (pastReq.sendAt = none →
      postNotify 1 7 true pastReq =
        (.queued, [(jobOfReq 1 pastReq, retryOpts)], [])) ∧
    (∀ t, pastReq.sendAt = some t →
      postNotify 1 7 true pastReq =
        (.scheduled 7, [], [schedOfReq 1 7 t pastReq])) :=
  c5_amended_sendat_presence 1 7 true pastReq (by decide) (by decide)

/-- Claim C10: the bulk endpoint accepts a recipients array only when
its length is between 1 and 100 inclusive; a request outside those
bounds fails validation, with no job enqueued and no Scheduled
Notification created; a request passing validation (and its template
check) is accepted. -/
theorem c10_bulk_bounds (userId baseId : Nat) (tok : Bool)
    (req : BulkReq) :
    ((req.recipients.length < 1 ∨ 100 < req.recipients.length) →
      postBulk userId baseId tok req = (.validationError, [], [])) ∧
    (validBulkReq req = true → (req.templateId.isSome = true → tok = true) →
      (postBulk userId baseId tok req).1 ≠ SubmitResp.validationError ∧
      1 ≤ req.recipients.length ∧ req.recipients.length ≤ 100) := by
  constructor
  · intro hout
    cases hv : validBulkReq req with
    | false => simp [postBulk, hv]
    | true =>
      exfalso
      simp only [validBulkReq, Bool.and_eq_true, decide_eq_true_eq] at hv
      rcases hout with h | h <;> omega
  · intro hvalid htemp
    have hb : 1 ≤ req.recipients.length ∧ req.recipients.length ≤ 100 := by
      simp only [validBulkReq, Bool.and_eq_true, decide_eq_true_eq] at hvalid
      omega
    have hv2 : (!validBulkReq req) = false := by simp [hvalid]
    have ht2 : (req.templateId.isSome && !tok) = false := by
      cases hti : req.templateId.isSome with
      | false => simp
      | true => simp [htemp hti]
    refine ⟨?_, hb⟩
    cases hs : req.sendAt <;> simp [postBulk, hv2, ht2, hs]

/-- Witness for C10: the empty recipients array is rejected with no
effects. -/
theorem c10_witness :
    postBulk 1 20 true bulkReqEmpty = (.validationError, [], []) :=
  (c10_bulk_bounds 1 20 true bulkReqEmpty).1 (Or.inl (by decide))

/-- A record that is not both pending and due is left untouched by the
promotion sweep and produces no job, whatever the call outcomes. -/
theorem promoteOne_unselected (now : Nat) (env : SweepEnv) (r : Sched)
    (h : ¬(r.status = "pending" ∧ r.sendAt ≤ now)) :
    promoteOne now env r = ⟨r, [], false⟩ := by
  simp only [promoteOne, if_neg h]

/-- A record whose status is no longer 'pending' is invariant under any
sequence of sweeps and cancellations, and is never enqueued again: no
operation of the system ever sets a scheduled record back to
'pending'. -/
theorem runSchedOps_not_pending :
    ∀ (ops : List SchedOp) (r : Sched), ¬ r.status = "pending" →
      runSchedOps ops r = (r, 0)
  | [], _, _ => rfl
  | op :: ops, r, h => by
    cases op with
    | sweep now env =>
      simp [runSchedOps, applySchedOp,
        promoteOne_unselected now env r fun hc => h hc.1,
        runSchedOps_not_pending ops r h]
    | cancel =>
      simp [runSchedOps, applySchedOp, cancelScheduled, h,
        runSchedOps_not_pending ops r h]

/-- Across any sequence of promotion sweeps whose two status updates
resolve, and cancellations, one scheduled record is promoted (has a
job enqueued for it) at most once: with a reliable store a promotion
moves the record to 'queued' (or 'failed'), after which it is never
pending again. -/
theorem runSchedOps_promotions_le_one :
    ∀ (ops : List SchedOp) (r : Sched), (∀ op ∈ ops, reliableOp op) →
      (runSchedOps ops r).2 ≤ 1
  | [], _, _ => by simp [runSchedOps]
  | op :: ops, r, hrel => by
    have hops : ∀ o ∈ ops, reliableOp o := fun o ho =>
      hrel o (List.mem_cons_of_mem op ho)
    cases op with
    | cancel =>
      have h := runSchedOps_promotions_le_one ops (cancelScheduled r).2 hops
      simp only [runSchedOps, applySchedOp]
      omega
    | sweep now env =>
      have hok : env.markQueuedOk = true ∧ env.markFailedOk = true :=
        hrel _ (List.mem_cons_self _ _)
      by_cases hp : r.status = "pending" ∧ r.sendAt ≤ now
      · cases he : env.enqOk with
        | true =>
          have hpo : promoteOne now env r =
              ⟨{ r with status := "queued" },
               [(jobOfSched r, retryOpts)], false⟩ := by
            simp [promoteOne, hp, he, hok.1]
          have hrest : runSchedOps ops { r with status := "queued" } =
              ({ r with status := "queued" }, 0) :=
            runSchedOps_not_pending ops _ (by simp)
          simp [runSchedOps, applySchedOp, hpo, hrest]
        | false =>
          have hpo : promoteOne now env r =
              ⟨{ r with status := "failed" }, [], false⟩ := by
            simp [promoteOne, hp, he, hok.2]
          have h := runSchedOps_promotions_le_one ops
            { r with status := "failed" } hops
          simp only [runSchedOps, applySchedOp, hpo]
          simpa using h
      · have h := runSchedOps_promotions_le_one ops r hops
        simp only [runSchedOps, applySchedOp,
          promoteOne_unselected now env r hp]
        simpa using h

/-- When every record's two status updates resolve, no per-record
catch rethrows, and the jobs a whole tick enqueues are exactly those
of the records with status 'pending' and sendAt ≤ now whose enqueue
succeeds, each copied field-for-field with the retry options. -/
theorem promoteTick_jobs (now : Nat) (envOf : Nat → SweepEnv)
    (hok : ∀ i, (envOf i).markQueuedOk = true ∧
      (envOf i).markFailedOk = true) :
    ∀ rs : List Sched,
      (promoteTick now envOf rs).2 =
        (rs.filter fun x =>
          decide (x.status = "pending" ∧ x.sendAt ≤ now) &&
            (envOf x.id).enqOk).map fun x => (jobOfSched x, retryOpts)
  | [] => rfl
  | x :: rs => by
    have ih := promoteTick_jobs now envOf hok rs
    by_cases hp : x.status = "pending" ∧ x.sendAt ≤ now
    · cases he : (envOf x.id).enqOk with
      | true =>
        have hpo : promoteOne now (envOf x.id) x =
            ⟨{ x with status := "queued" },
             [(jobOfSched x, retryOpts)], false⟩ := by
          simp [promoteOne, hp, he, (hok x.id).1]
        simp [promoteTick, hpo, ih, List.filter_cons, hp, he]
      | false =>
        have hpo : promoteOne now (envOf x.id) x =
            ⟨{ x with status := "failed" }, [], false⟩ := by
          simp [promoteOne, hp, he, (hok x.id).2]
        simp [promoteTick, hpo, ih, List.filter_cons, hp, he]
    · have hpo := promoteOne_unselected now (envOf x.id) x hp
      simp [promoteTick, hpo, ih, List.filter_cons, hp]

/-- Claim C6, counterexample: over a due pending record, a first sweep
whose enqueue succeeds but whose status updates both throw leaves the
record pending with its job already enqueued, so the next sweep
enqueues it again — the record is promoted twice.  Moreover, when only
the mark-queued update throws, the record is marked failed although
its enqueue succeeded, so 'failed' does not mean the enqueue itself
failed. -/
theorem c6_counterexample :
    (runSchedOps doublePromoteOps pendingSched).2 = 2 ∧
    ¬(runSchedOps doublePromoteOps pendingSched).2 ≤ 1 ∧
    (promoteOne 10
      { enqOk := true, markQueuedOk := false, markFailedOk := true }
      pendingSched).record.status = "failed" ∧
    (promoteOne 10
      { enqOk := true, markQueuedOk := false, markFailedOk := true }
      pendingSched).jobs ≠ [] := by decide

/-- Claim C6 (amended): the sweep acts exactly on records with status
pending and sendAt ≤ now, and enqueues the equivalent job with retry
policy 3 attempts, exponential backoff base 10s, exactly for the
selected records whose enqueue the queue accepts.  A selected record
transitions pending to queued when the enqueue and the mark-queued
update both resolve; it transitions to failed when the enqueue throws,
but also when only the mark-queued update throws — then with its job
enqueued; when the catch's own update throws, the record stays pending
and the tick aborts.  Unselected records are untouched; with a
reliable store a whole tick's job list is exactly the selected
records' jobs; and a record is promoted at most once across any
sequence of sweeps and cancellations provided the status updates
resolve — at-least-once, not exactly-once, when they can fail. -/
theorem c6_amended_promotion (now : Nat) (env : SweepEnv) (r : Sched) :
    ((promoteOne now env r).jobs ≠ [] ↔
      (r.status = "pending" ∧ r.sendAt ≤ now ∧ env.enqOk = true)) ∧
    (r.status = "pending" → r.sendAt ≤ now → env.enqOk = true →
      env.markQueuedOk = true →
      promoteOne now env r =
        ⟨{ r with status := "queued" },
         [(jobOfSched r,
           { attempts := 3, backoffType := "exponential",
             backoffDelay := 10000 })], false⟩) ∧
    (r.status = "pending" → r.sendAt ≤ now → env.enqOk = false →
      env.markFailedOk = true →
      promoteOne now env r = ⟨{ r with status := "failed" }, [], false⟩) ∧
    (r.status = "pending" → r.sendAt ≤ now → env.enqOk = true →
      env.markQueuedOk = false → env.markFailedOk = true →
      promoteOne now env r =
        ⟨{ r with status := "failed" },
         [(jobOfSched r, retryOpts)], false⟩) ∧
    (r.status = "pending" → r.sendAt ≤ now → env.markFailedOk = false →
      env.markQueuedOk = false →
      promoteOne now env r =
        ⟨r, if env.enqOk then [(jobOfSched r, retryOpts)] else [], true⟩) ∧
    (¬(r.status = "pending" ∧ r.sendAt ≤ now) →
      promoteOne now env r = ⟨r, [], false⟩) ∧
    (∀ envOf : Nat → SweepEnv,
      (∀ i, (envOf i).markQueuedOk = true ∧
        (envOf i).markFailedOk = true) →
      ∀ rs : List Sched,
        (promoteTick now envOf rs).2 =
          (rs.filter fun x =>
            decide (x.status = "pending" ∧ x.sendAt ≤ now) &&
              (envOf x.id).enqOk).map
            fun x => (jobOfSched x, retryOpts)) ∧
    (∀ ops : List SchedOp, (∀ op ∈ ops, reliableOp op) →
      (runSchedOps ops r).2 ≤ 1) := by
  refine ⟨?_, ?_, ?_, ?_, ?_, ?_,
    fun envOf hok rs => promoteTick_jobs now envOf hok rs,
    fun ops hrel => runSchedOps_promotions_le_one ops r hrel⟩
  · constructor
    · intro hne
      by_cases hp : r.status = "pending" ∧ r.sendAt ≤ now
      · cases he : env.enqOk with
        | true => exact ⟨hp.1, hp.2, rfl⟩
        | false =>
          exfalso
          cases hf : env.markFailedOk with
          | true => simp [promoteOne, hp, he, hf] at hne
          | false => simp [promoteOne, hp, he, hf] at hne
      · exact absurd (by simp [promoteOne_unselected now env r hp]) hne
    · rintro ⟨h1, h2, h3⟩
      cases hq : env.markQueuedOk with
      | true => simp [promoteOne, h1, h2, h3, hq]
      | false =>
        cases hf : env.markFailedOk with
        | true => simp [promoteOne, h1, h2, h3, hq, hf]
        | false => simp [promoteOne, h1, h2, h3, hq, hf]
  · intro h1 h2 h3 h4
    simp [promoteOne, h1, h2, h3, h4, retryOpts]
  · intro h1 h2 h3 h4
    simp [promoteOne, h1, h2, h3, h4]
  · intro h1 h2 h3 h4 h5
    simp [promoteOne, h1, h2, h3, h4, h5, retryOpts]
  · intro h1 h2 h3 h4
    cases he : env.enqOk <;> simp [promoteOne, h1, h2, h3, h4, he]
  · intro hp
    exact promoteOne_unselected now env r hp

/-- Witness for the amended C6: a pending record due at 5, swept at
time 10 with every call resolving, becomes queued with its equivalent
job enqueued under the retry options. -/
theorem c6_amended_witness :
    promoteOne 10 okSweepEnv pendingSched =
      ⟨{ pendingSched with status := "queued" },
       [(jobOfSched pendingSched,
         { attempts := 3, backoffType := "exponential",
           backoffDelay := 10000 })], false⟩ :=
  (c6_amended_promotion 10 okSweepEnv pendingSched).2.1 rfl (by decide)
    rfl rfl

/-- Claim C7: the completion sweep transitions a running campaign to
completed, stamping the completion time, exactly when it has zero
scheduled notifications in status pending or queued and successCount +
failureCount has reached totalRecipients; a campaign with outstanding
pending/queued recipients is never transitioned, and a campaign not in
status running is untouched. -/
theorem c7_completion_sweep (now : Nat) (c : CampaignRec) :
    (c.status = "running" →
      ((completionCheckOne now c).status = "completed" ↔
        (outstanding c = 0 ∧
          c.totalRecipients ≤ c.successCount + c.failureCount))) ∧
    (c.status = "running" → outstanding c = 0 →
      c.totalRecipients ≤ c.successCount + c.failureCount →
      completionCheckOne now c =
        { c with status := "completed", completedAt := some now }) ∧
    (0 < outstanding c → completionCheckOne now c = c) ∧
    (¬ c.status = "running" → completionCheckOne now c = c) := by
  refine ⟨?_, ?_, ?_, ?_⟩
  · intro hr
    constructor
    · intro hcompl
      by_cases hcond : c.status = "running" ∧ outstanding c = 0 ∧
          c.totalRecipients ≤ c.successCount + c.failureCount
      · exact ⟨hcond.2.1, hcond.2.2⟩
      · rw [completionCheckOne, if_neg hcond] at hcompl
        rw [hr] at hcompl
        simp at hcompl
    · rintro ⟨h1, h2⟩
      rw [completionCheckOne, if_pos ⟨hr, h1, h2⟩]
  · intro hr h1 h2
    rw [completionCheckOne, if_pos ⟨hr, h1, h2⟩]
  · intro hout
    rw [completionCheckOne, if_neg]
    rintro ⟨-, h1, -⟩
    omega
  · intro hr
    rw [completionCheckOne, if_neg]
    rintro ⟨h1, -, -⟩
    exact hr h1

/-- Witness for C7: a running campaign with 3 recipients, counters
2 + 1 and no outstanding scheduled work is flipped to completed with
the completion time stamped. -/
theorem c7_witness :
    completionCheckOne 99 drainedCampaign =
      { drainedCampaign with
          status := "completed", completedAt := some 99 } :=
  (c7_completion_sweep 99 drainedCampaign).2.1 rfl (by decide) (by decide)

/-- Claim C8: cancelling a scheduled notification succeeds exactly when
its status is pending, transitioning it to cancelled; a cancel request
on a record in any other status is rejected and leaves the record
unchanged; and after any cancel the record is never promoted by any
sequence of later sweeps. -/
theorem c8_cancel_pending_only (r : Sched) :
    ((cancelScheduled r).1 = true ↔ r.status = "pending") ∧
    (r.status = "pending" →
      (cancelScheduled r).2 = { r with status := "cancelled" }) ∧
    (¬ r.status = "pending" → cancelScheduled r = (false, r)) ∧
    (∀ ops : List SchedOp,
      (runSchedOps ops (cancelScheduled r).2).2 = 0) := by
  refine ⟨?_, ?_, ?_, ?_⟩
  · constructor
    · intro h
      by_cases hp : r.status = "pending"
      · exact hp
      · simp [cancelScheduled, hp] at h
    · intro hp
      simp [cancelScheduled, hp]
  · intro hp
    simp [cancelScheduled, hp]
  · intro hp
    simp [cancelScheduled, hp]
  · intro ops
    by_cases hp : r.status = "pending"
    · have : (cancelScheduled r).2 = { r with status := "cancelled" } := by
        simp [cancelScheduled, hp]
      rw [this, runSchedOps_not_pending ops _ (by simp)]
    · have : (cancelScheduled r).2 = r := by simp [cancelScheduled, hp]
      rw [this, runSchedOps_not_pending ops r hp]

/-- Witness for C8: cancelling the pending record moves it to
cancelled. -/
theorem c8_witness :
    (cancelScheduled pendingSched).2 =
      { pendingSched with status := "cancelled" } :=
  (c8_cancel_pending_only pendingSched).2.1 rfl

end Snds

